import Mathlib

/-!
Shallow embedding of the tag-partitioned log system coordinator
(fdbserver/TagPartitionedLogSystem.actor.cpp) and proofs about it.

Conventions used throughout:
* `Version` (int64_t) is modelled as `Int`; the claims never depend on overflow.
* RPC interfaces (`AsyncVar<OptionalInterface<TLogInterface>>`) are modelled by
  `ServerRef`, recording the interface id and whether it is present.
* `LocalityData` values are modelled as opaque `Nat` identifiers, and replication
  policies (`IRepPolicyRef`) as opaque `Nat` identifiers.  The replication policy
  library (`validate`, `validateAllCombinations`, `bestLocationFor`,
  `filterLocalityDataForPolicy`) is external to this repository (fdbrpc); it is
  modelled as an environment `ReplicationEnv` of pure functions, exactly as the
  spec describes it ("assumed available as pure functions").
* A `Future<T>`, as observed at one instant, is a `FutureState T`:
  pending, errored, or ready with a value.
-/

namespace FDBLog

-- Tag locality constants.  Modelled from the spec: the numeric values live in
-- fdbclient/FDBTypes.h and fdbclient/SystemData.cpp, which are outside this
-- repository; only their distinctness matters for the control flow embedded here.
def tagLocalitySpecial : Int := -1

def tagLocalityLogRouter : Int := -2

def tagLocalityRemoteLog : Int := -3

def tagLocalityUpgraded : Int := -4

def tagLocalityInvalid : Int := -99

structure Tag where
  locality : Int
  id : Nat
deriving DecidableEq, Inhabited

-- Modelled from the spec: the txs tag and the invalid tag are sentinels defined
-- outside this repository; only their identities matter.
def txsTag : Tag := ⟨tagLocalitySpecial, 1⟩

def invalidTag : Tag := ⟨tagLocalitySpecial, 0⟩

-- std::numeric_limits<Version>::max()
def maxVersion : Int := 9223372036854775807

-- One log server (or log router) handle: the id of an
-- AsyncVar<OptionalInterface<TLogInterface>> and whether the interface is present.
structure ServerRef where
  id : Nat
  present : Bool
deriving DecidableEq, Inhabited

-- struct LogSet (LogSystem.h / used throughout the source file).
structure LogSet where
  logServers : List ServerRef
  logRouters : List ServerRef
  tLogWriteAntiQuorum : Nat
  tLogReplicationFactor : Nat
  tLogPolicy : Nat
  tLogLocalities : List Nat
  isLocal : Bool
  hasBestPolicy : Nat
  locality : Int
  startVersion : Int
deriving DecidableEq, Inhabited

-- TLogLockResult { Version end; Version knownCommittedVersion; }.
-- The field `end` is a Lean keyword and is spelled endV.
structure TLogLockResult where
  endV : Int
  knownCommittedVersion : Int
deriving DecidableEq, Inhabited

-- The observable state of a Future at one instant.
inductive FutureState (α : Type) where
  | pending
  | errored
  | ready (value : α)
deriving DecidableEq

-- struct LogLockInfo: per old LogSet locking state.
structure LogLockInfo where
  epochEnd : Int
  isCurrent : Bool
  logSet : LogSet
  replies : List (FutureState TLogLockResult)
deriving DecidableEq

-- The external replication policy library and configuration knobs, as pure
-- functions (spec section 1: "assumed available as pure functions").
-- versionBound is the bound used in getDurableVersion: in production
-- MAX_READ_TRANSACTION_LIFE_VERSIONS, in simulation 10x VERSIONS_PER_SECOND.
structure ReplicationEnv where
  validate : Nat → List Nat → Bool
  validateAllCombinations : Nat → List Nat → List Nat → Nat → Bool
  bestLocationFor : LogSet → Tag → Int
  filterLocalityDataForPolicy : Nat → List Nat → List Nat
  versionBound : Int

/-! getDurableVersion (source lines 1073-1138). -/

-- (!failed.size() || !failed[t]->get()) : with no failure flags every server
-- counts as not failed; getD returns false for the empty list.
def failedFlagAt (failed : List Bool) (t : Nat) : Bool := failed.getD t false

-- The partition loop (source lines 1090-1100): walks the reply vector and the
-- aligned locality vector, producing (results, availableItems, unResponsive
-- localities).  A server is responded iff its reply is ready, not an error and
-- not flagged failed.
def splitLockReplies :
    List (FutureState TLogLockResult) → List Nat → List Bool → Nat →
      List TLogLockResult × List Nat × List Nat
  | [], _, _, _ => ([], [], [])
  | _ :: _, [], _, _ => ([], [], [])
  | reply :: rs, loc :: ls, failed, t =>
    let rest := splitLockReplies rs ls failed (t + 1)
    match reply with
    | .ready v =>
      if failedFlagAt failed t then (rest.1, rest.2.1, loc :: rest.2.2)
      else (v :: rest.1, loc :: rest.2.1, rest.2.2)
    | _ => (rest.1, rest.2.1, loc :: rest.2.2)

def lockResponses (li : LogLockInfo) (failed : List Bool) :
    List TLogLockResult × List Nat × List Nat :=
  splitLockReplies li.replies li.logSet.tLogLocalities failed 0

-- std::sort(results, sort_by_end()): insertion sort by the end field.  std::sort
-- leaves the order of equal ends unspecified; every observable of the sorted
-- vector used below (the end at a fixed index, the maximum kcv) is independent
-- of the tie order.
def insertByEnd (r : TLogLockResult) : List TLogLockResult → List TLogLockResult
  | [] => [r]
  | x :: xs => if r.endV ≤ x.endV then r :: x :: xs else x :: insertByEnd r xs

def sortByEnd : List TLogLockResult → List TLogLockResult
  | [] => []
  | x :: xs => insertByEnd x (sortByEnd xs)

-- Source lines 1102-1112: the three too-many-failures checks.
def bTooManyFailures (env : ReplicationEnv) (li : LogLockInfo) (failed : List Bool) : Bool :=
  let resp := lockResponses li failed
  decide (resp.1.length ≤ li.logSet.tLogWriteAntiQuorum)
  || (decide (li.logSet.tLogReplicationFactor ≤ resp.2.2.length)
      && env.validate li.logSet.tLogPolicy resp.2.2)
  || (decide (0 < li.logSet.tLogWriteAntiQuorum)
      && !(env.validateAllCombinations li.logSet.tLogPolicy resp.2.2 resp.2.1
            li.logSet.tLogWriteAntiQuorum))

-- int safe_range_end = tLogReplicationFactor - absent, with
-- absent = logServers.size() - results.size(); computed over Int.
def safeRangeEnd (li : LogLockInfo) (failed : List Bool) : Int :=
  (li.logSet.tLogReplicationFactor : Int)
    - ((li.logSet.logServers.length : Int) - ((lockResponses li failed).1.length : Int))

-- int new_safe_range_begin = std::min(tLogWriteAntiQuorum, (int)(results.size()-1)).
def newSafeRangeBegin (li : LogLockInfo) (failed : List Bool) : Nat :=
  min li.logSet.tLogWriteAntiQuorum ((lockResponses li failed).1.length - 1)

-- The outer condition of source line 1122.
def durableGuard (li : LogLockInfo) (failed : List Bool) : Option Int → Bool
  | none => true
  | some lastEnd =>
    decide (0 < safeRangeEnd li failed)
    && decide (safeRangeEnd li failed - 1 < ((lockResponses li failed).1.length : Int))
    && decide (((sortByEnd (lockResponses li failed).1).getD
          (safeRangeEnd li failed - 1).toNat default).endV < lastEnd)

def durableEnd (li : LogLockInfo) (failed : List Bool) : Int :=
  ((sortByEnd (lockResponses li failed).1).getD (newSafeRangeBegin li failed) default).endV

-- Source lines 1123-1126: start from results[new_safe_range_begin].end - bound
-- and fold in every responded server's knownCommittedVersion.
def durableKCV (env : ReplicationEnv) (li : LogLockInfo) (failed : List Bool) : Int :=
  (sortByEnd (lockResponses li failed).1).foldl
    (fun acc r => max acc r.knownCommittedVersion)
    (durableEnd li failed - env.versionBound)

def getDurableVersion (env : ReplicationEnv) (li : LogLockInfo) (failed : List Bool)
    (lastEnd : Option Int) : Option (Int × Int) :=
  if bTooManyFailures env li failed then none
  else if durableGuard li failed lastEnd then
    some (durableKCV env li failed, durableEnd li failed)
  else none

-- A concrete environment for evaluating witnesses: a policy that every group
-- validates, identity locality filtering, and bound 2000.
def envTrue : ReplicationEnv :=
  { validate := fun _ _ => true
    validateAllCombinations := fun _ _ _ _ => true
    bestLocationFor := fun _ _ => 0
    filterLocalityDataForPolicy := fun _ ls => ls
    versionBound := 2000 }

/-- C1: when getDurableVersion does not detect too many failures, it sorts the
responded lock results ascending by end and, if lastEnd is absent or the
responded entry at index safe_range_end - 1 = (R - (N - |responded|)) - 1 exists
(safe_range_end > 0) and has end < lastEnd, it returns (kcv, end) where end is
the end of the sorted responded entry at index min(A, |responded| - 1) and kcv
is the maximum of (that end minus the configured bound) and every responded
server's knownCommittedVersion. -/
theorem c1_getDurableVersion_success (env : ReplicationEnv) (li : LogLockInfo)
    (failed : List Bool) (lastEnd : Option Int)
    (hRN : li.logSet.tLogReplicationFactor ≤ li.logSet.logServers.length)
    (hTMF : bTooManyFailures env li failed = false)
    (hGuard : lastEnd = none ∨
      (0 < safeRangeEnd li failed ∧ ∃ le, lastEnd = some le ∧
        ((sortByEnd (lockResponses li failed).1).getD
          (safeRangeEnd li failed - 1).toNat default).endV < le)) :
    getDurableVersion env li failed lastEnd =
      some
        ((sortByEnd (lockResponses li failed).1).foldl
            (fun acc r => max acc r.knownCommittedVersion)
            (((sortByEnd (lockResponses li failed).1).getD
                (min li.logSet.tLogWriteAntiQuorum ((lockResponses li failed).1.length - 1))
                default).endV - env.versionBound),
          ((sortByEnd (lockResponses li failed).1).getD
              (min li.logSet.tLogWriteAntiQuorum ((lockResponses li failed).1.length - 1))
              default).endV) := by
  have hg : durableGuard li failed lastEnd = true := by
    rcases hGuard with h | ⟨hpos, le, hle, hlt⟩
    · rw [h]; rfl
    · have h2 : safeRangeEnd li failed - 1 < ((lockResponses li failed).1.length : Int) := by
        unfold safeRangeEnd
        omega
      rw [hle]
      unfold durableGuard
      rw [Bool.and_eq_true, Bool.and_eq_true]
      exact ⟨⟨decide_eq_true hpos, decide_eq_true h2⟩, decide_eq_true hlt⟩
  simp [getDurableVersion, hTMF, hg, durableKCV, durableEnd, newSafeRangeBegin]

/-- C1 witness: scenario S2, with N = 4, R = 3, A = 1, all four servers
responding with ends 70, 50, 80, 60 (so 50, 60, 70, 80 after sorting) and
kcv 0; the returned end is 60. -/
theorem c1_witness :
    bTooManyFailures envTrue
        ⟨1000, true,
          ⟨[⟨1, true⟩, ⟨2, true⟩, ⟨3, true⟩, ⟨4, true⟩], [], 1, 3, 0,
            [10, 20, 30, 40], true, 1, 0, 0⟩,
          [.ready ⟨70, 0⟩, .ready ⟨50, 0⟩, .ready ⟨80, 0⟩, .ready ⟨60, 0⟩]⟩ [] = false
    ∧ getDurableVersion envTrue
        ⟨1000, true,
          ⟨[⟨1, true⟩, ⟨2, true⟩, ⟨3, true⟩, ⟨4, true⟩], [], 1, 3, 0,
            [10, 20, 30, 40], true, 1, 0, 0⟩,
          [.ready ⟨70, 0⟩, .ready ⟨50, 0⟩, .ready ⟨80, 0⟩, .ready ⟨60, 0⟩]⟩ [] none =
        some (0, 60) :=
  ⟨by decide,
    (c1_getDurableVersion_success envTrue
        ⟨1000, true,
          ⟨[⟨1, true⟩, ⟨2, true⟩, ⟨3, true⟩, ⟨4, true⟩], [], 1, 3, 0,
            [10, 20, 30, 40], true, 1, 0, 0⟩,
          [.ready ⟨70, 0⟩, .ready ⟨50, 0⟩, .ready ⟨80, 0⟩, .ready ⟨60, 0⟩]⟩ []
        none (by decide) (by decide) (Or.inl rfl)).trans (by decide)⟩

/-- C2 (amended): getDurableVersion returns the empty Optional whenever the
failure pattern is excessive: the number of responded servers is at most A, or
the unresponsive servers number at least R and their localities validate the
policy, or A > 0 and validateAllCombinations over the unresponsive set against
the responded localities fails. -/
theorem c2_tooManyFailures_empty (env : ReplicationEnv) (li : LogLockInfo)
    (failed : List Bool) (lastEnd : Option Int)
    (h : (lockResponses li failed).1.length ≤ li.logSet.tLogWriteAntiQuorum
      ∨ (li.logSet.tLogReplicationFactor ≤ (lockResponses li failed).2.2.length
          ∧ env.validate li.logSet.tLogPolicy (lockResponses li failed).2.2 = true)
      ∨ (0 < li.logSet.tLogWriteAntiQuorum
          ∧ env.validateAllCombinations li.logSet.tLogPolicy (lockResponses li failed).2.2
              (lockResponses li failed).2.1 li.logSet.tLogWriteAntiQuorum = false)) :
    getDurableVersion env li failed lastEnd = none := by
  have hb : bTooManyFailures env li failed = true := by
    unfold bTooManyFailures
    rcases h with h1 | ⟨h2a, h2b⟩ | ⟨h3a, h3b⟩
    · simp [h1]
    · simp [h2a, h2b]
    · simp [h3a, h3b]
  simp [getDurableVersion, hb]

/-- C2 witness: N = 3, R = 2, A = 0, one reply present, two servers timed out
whose localities validate the policy (every group validates under envTrue); the
unresponsive group has size 2 ≥ R = 2, so the result is empty. -/
theorem c2_witness :
    getDurableVersion envTrue
        ⟨1000, true,
          ⟨[⟨1, true⟩, ⟨2, true⟩, ⟨3, true⟩], [], 0, 2, 0, [10, 20, 30], true, 1, 0, 0⟩,
          [.ready ⟨100, 99⟩, .pending, .pending]⟩ [] none = none :=
  c2_tooManyFailures_empty envTrue
    ⟨1000, true,
      ⟨[⟨1, true⟩, ⟨2, true⟩, ⟨3, true⟩], [], 0, 2, 0, [10, 20, 30], true, 1, 0, 0⟩,
      [.ready ⟨100, 99⟩, .pending, .pending]⟩ [] none
    (Or.inr (Or.inl (by decide)))

/-- C2 counterexample: the claim's own instance S3 (N = 3, R = 3, A = 0, one
reply present, two timed out whose localities validate the policy) does not
return empty: the unresponsive group has size 2 < R = 3, so none of the
too-many-failure checks fire and, with lastEnd absent, the code returns
(99, 100) rather than the empty Optional. -/
theorem c2_s3_counterexample :
    envTrue.validate 0 [20, 30] = true
    ∧ getDurableVersion envTrue
        ⟨1000, true,
          ⟨[⟨1, true⟩, ⟨2, true⟩, ⟨3, true⟩], [], 0, 3, 0, [10, 20, 30], true, 1, 0, 0⟩,
          [.ready ⟨100, 99⟩, .pending, .pending]⟩ [] none = some (99, 100)
    ∧ getDurableVersion envTrue
        ⟨1000, true,
          ⟨[⟨1, true⟩, ⟨2, true⟩, ⟨3, true⟩], [], 0, 3, 0, [10, 20, 30], true, 1, 0, 0⟩,
          [.ready ⟨100, 99⟩, .pending, .pending]⟩ [] none ≠ none := by
  refine ⟨by decide, by decide, by decide⟩

/-! The LogSystem state: struct TagPartitionedLogSystem (source lines 63-90) and
struct OldLogData (source lines 46-52).  Only the data fields relevant to the
claims are modelled; futures, actor collections and the debug id are omitted. -/

structure OldLogData where
  tLogs : List LogSet
  logRouterTags : Int
  epochEnd : Int
deriving DecidableEq, Inhabited

structure TagPartitionedLogSystem where
  logSystemType : Int
  tLogs : List LogSet
  expectedLogSets : Int
  logRouterTags : Int
  recruitmentID : Nat
  stopped : Bool
  recoveryCompleteWrittenToCoreState : Bool
  remoteLogsWrittenToCoreState : Bool
  epochEndVersion : Option Int
  knownCommittedVersion : Int
  oldLogData : List OldLogData
deriving DecidableEq, Inhabited

-- The constructor initializer list (source line 90).  knownCommittedVersion is
-- left uninitialized by the C++ constructor and is always assigned before use;
-- 0 is used as its model value.
def freshLogSystem : TagPartitionedLogSystem :=
  ⟨0, [], 0, 0, 0, false, false, false, none, 0, []⟩

/-! push (source lines 388-409).  For every local set with nonempty servers the
code sends one commit per server and forms quorum(results, size - antiQuorum);
the push future is waitForAll of those quorums.  The per-location payload
slicing does not affect completion and is not modelled.  Completion is stated
against an acknowledgement assignment ack : set index → server index → Bool. -/

-- quorum(tLogCommitResults, tLogCommitResults.size() - tLogWriteAntiQuorum)
-- completes successfully once that many commit futures have succeeded.
def pushQuorumOK (tLogs : List LogSet) (ack : Nat → Nat → Bool) (i : Nat) : Bool :=
  let s := tLogs.getD i default
  decide (s.logServers.length - s.tLogWriteAntiQuorum ≤
    ((List.range s.logServers.length).filter (fun j => ack i j)).length)

-- waitForAll(quorumResults) over the sets selected by (isLocal && servers nonempty).
def pushCompletes (tLogs : List LogSet) (ack : Nat → Nat → Bool) : Bool :=
  ((List.range tLogs.length).filter
      (fun i => (tLogs.getD i default).isLocal && !(tLogs.getD i default).logServers.isEmpty)).all
    (pushQuorumOK tLogs ack)

/-- C3: push completes successfully exactly when, for every local LogSet with
nonempty servers, at least N - A of that set's N servers have acknowledged
their commit requests, where A is the set's write anti-quorum; in particular it
does not complete while any local set is below that quorum. -/
theorem c3_push_quorum_iff (tLogs : List LogSet) (ack : Nat → Nat → Bool) :
    pushCompletes tLogs ack = true ↔
      ∀ i, i < tLogs.length → (tLogs.getD i default).isLocal = true →
        (tLogs.getD i default).logServers ≠ [] →
        (tLogs.getD i default).logServers.length - (tLogs.getD i default).tLogWriteAntiQuorum ≤
          ((List.range (tLogs.getD i default).logServers.length).filter (fun j => ack i j)).length := by
  unfold pushCompletes pushQuorumOK
  rw [List.all_eq_true]
  constructor
  · intro h i hi hLocal hNonempty
    have hmem : i ∈ (List.range tLogs.length).filter
        (fun i => (tLogs.getD i default).isLocal && !(tLogs.getD i default).logServers.isEmpty) := by
      rw [List.mem_filter, List.mem_range]
      refine ⟨hi, ?_⟩
      rw [Bool.and_eq_true, hLocal]
      refine ⟨rfl, ?_⟩
      cases hE : (tLogs.getD i default).logServers with
      | nil => exact absurd hE hNonempty
      | cons a l => rfl
    have := h i hmem
    exact of_decide_eq_true this
  · intro h i hmem
    rw [List.mem_filter, List.mem_range, Bool.and_eq_true] at hmem
    obtain ⟨hi, hLocal, hNonempty⟩ := hmem
    refine decide_eq_true (h i hi hLocal ?_)
    intro hE
    rw [hE] at hNonempty
    exact absurd hNonempty (by decide)

/-- C3 witness: one local set of three servers with anti-quorum 1; with two
acknowledgements the push completes, and the quorum bound 3 - 1 = 2 holds. -/
theorem c3_witness :
    pushCompletes
        [⟨[⟨1, true⟩, ⟨2, true⟩, ⟨3, true⟩], [], 1, 2, 0, [10, 20, 30], true, 1, 0, 0⟩]
        (fun _ j => j ≤ 1) = true :=
  (c3_push_quorum_iff
      [⟨[⟨1, true⟩, ⟨2, true⟩, ⟨3, true⟩], [], 1, 2, 0, [10, 20, 30], true, 1, 0, 0⟩]
      (fun _ j => j ≤ 1)).mpr (by decide)

/-! newEpoch, primary start version (source lines 1636-1654).  The new primary
set's startVersion is initialized to oldLogSystem.knownCommittedVersion + 1;
the loop then scans lockResults for the first entry whose set has the primary
locality.  If that entry is both current and local the loop breaks; otherwise
it waits until getDurableVersion for it (with no failure flags and no lastEnd)
resolves and assigns min(versions.first + 1, lockResult.epochEnd, current).
A lock result whose getDurableVersion never resolves makes the actor wait
forever, modelled as the result none. -/

def newEpochPrimaryStart (env : ReplicationEnv) (oldKCV : Int) (primaryLocality : Int) :
    List LogLockInfo → Option Int
  | [] => some (oldKCV + 1)
  | l :: rest =>
    if l.logSet.locality = primaryLocality then
      if l.isCurrent && l.logSet.isLocal then some (oldKCV + 1)
      else
        match getDurableVersion env l [] none with
        | some v => some (min (min (v.1 + 1) l.epochEnd) (oldKCV + 1))
        | none => none
    else newEpochPrimaryStart env oldKCV primaryLocality rest

/-- C5: the primary startVersion of newEpoch starts at oldKnownCommitted + 1 and
is only ever lowered: whenever it resolves it is at most oldKCV + 1, and when
the first lock result matching the primary locality is not both current and
local, its resolved getDurableVersion value (kcv, end) makes the startVersion
exactly min(kcv + 1, lockEpochEnd, oldKCV + 1). -/
theorem c5_primary_start_version (env : ReplicationEnv) (oldKCV primaryLocality : Int)
    (lrs : List LogLockInfo) :
    (∀ v, newEpochPrimaryStart env oldKCV primaryLocality lrs = some v → v ≤ oldKCV + 1)
    ∧ (∀ l, lrs.find? (fun x => decide (x.logSet.locality = primaryLocality)) = some l →
        (l.isCurrent && l.logSet.isLocal) = false →
        ∀ k e, getDurableVersion env l [] none = some (k, e) →
          newEpochPrimaryStart env oldKCV primaryLocality lrs =
            some (min (min (k + 1) l.epochEnd) (oldKCV + 1))) := by
  induction lrs with
  | nil =>
    constructor
    · intro v hv
      simp only [newEpochPrimaryStart, Option.some.injEq] at hv
      omega
    · intro l hl
      simp at hl
  | cons head rest ih =>
    constructor
    · intro v hv
      by_cases hLoc : head.logSet.locality = primaryLocality
      · rw [newEpochPrimaryStart, if_pos hLoc] at hv
        by_cases hCur : (head.isCurrent && head.logSet.isLocal) = true
        · rw [if_pos hCur] at hv
          simp only [Option.some.injEq] at hv
          omega
        · rw [if_neg hCur] at hv
          rcases hgd : getDurableVersion env head [] none with _ | v2
          · rw [hgd] at hv
            exact absurd hv (by simp)
          · rw [hgd] at hv
            simp only [Option.some.injEq] at hv
            subst hv
            exact min_le_right _ _
      · rw [newEpochPrimaryStart, if_neg hLoc] at hv
        exact ih.1 v hv
    · intro l hl hCur k e hgd
      by_cases hLoc : head.logSet.locality = primaryLocality
      · have hp : (fun x => decide (x.logSet.locality = primaryLocality)) head = true := by
          simpa using hLoc
        have hfind : List.find? (fun x => decide (x.logSet.locality = primaryLocality))
            (head :: rest) = some head := by
          simp [List.find?_cons, hp]
        rw [hfind] at hl
        injection hl with hl
        subst hl
        rw [newEpochPrimaryStart, if_pos hLoc, if_neg (by simp [hCur]), hgd]
      · have hp : (fun x => decide (x.logSet.locality = primaryLocality)) head = false := by
          simpa using hLoc
        have hfind : List.find? (fun x => decide (x.logSet.locality = primaryLocality))
            (head :: rest) =
            List.find? (fun x => decide (x.logSet.locality = primaryLocality)) rest := by
          simp [List.find?_cons, hp]
        rw [hfind] at hl
        rw [newEpochPrimaryStart, if_neg hLoc]
        exact ih.2 l hl hCur k e hgd

/-- C5 witness: scenario S1 with oldKCV = 100 and a non-current lock result for
the primary locality whose getDurableVersion resolves to (100, 100); the
primary start version is min(101, 500, 101) = 101 ≤ 101. -/
theorem c5_witness :
    newEpochPrimaryStart envTrue 100 7
        [⟨500, false,
          ⟨[⟨1, true⟩, ⟨2, true⟩, ⟨3, true⟩], [], 0, 3, 0, [10, 20, 30], true, 1, 7, 0⟩,
          [.ready ⟨100, 99⟩, .ready ⟨100, 99⟩, .ready ⟨102, 100⟩]⟩] = some 101 :=
  ((c5_primary_start_version envTrue 100 7
      [⟨500, false,
        ⟨[⟨1, true⟩, ⟨2, true⟩, ⟨3, true⟩], [], 0, 3, 0, [10, 20, 30], true, 1, 7, 0⟩,
        [.ready ⟨100, 99⟩, .ready ⟨100, 99⟩, .ready ⟨102, 100⟩]⟩]).2
    ⟨500, false,
      ⟨[⟨1, true⟩, ⟨2, true⟩, ⟨3, true⟩], [], 0, 3, 0, [10, 20, 30], true, 1, 7, 0⟩,
      [.ready ⟨100, 99⟩, .ready ⟨100, 99⟩, .ready ⟨102, 100⟩]⟩
    (by decide) (by decide) 100 100 (by decide)).trans (by decide)

/-! epochEnd, brand-new database branch (source lines 1164-1174) and the
persisted core state it reads (DBCoreState.h, mirrored by the fields the source
uses). -/

structure CoreTLogSet where
  tLogs : List Nat
  tLogLocalities : List Nat
  tLogWriteAntiQuorum : Nat
  tLogReplicationFactor : Nat
  tLogPolicy : Nat
  isLocal : Bool
  hasBestPolicy : Nat
  locality : Int
  startVersion : Int
deriving DecidableEq, Inhabited

structure OldTLogCoreData where
  tLogs : List CoreTLogSet
  logRouterTags : Int
  epochEnd : Int
deriving DecidableEq, Inhabited

structure DBCoreState where
  tLogs : List CoreTLogSet
  logRouterTags : Int
  oldTLogData : List OldTLogCoreData
  logSystemType : Int
deriving DecidableEq, Inhabited

-- The observable start of the epochEnd actor: with prevState.tLogs empty it
-- publishes a fresh stopped LogSystem through outLogSystem and then waits on
-- Never() forever (the throw internal_error() after it is unreachable);
-- otherwise it proceeds into the full recovery path.
inductive EpochEndStart where
  | publishAndBlockForever (sys : TagPartitionedLogSystem)
  | fullRecovery
deriving DecidableEq

def epochEndStart (prevState : DBCoreState) : EpochEndStart :=
  if prevState.tLogs.isEmpty then
    .publishAndBlockForever
      { freshLogSystem with
          logSystemType := prevState.logSystemType
          epochEndVersion := some 0
          knownCommittedVersion := 0
          stopped := true }
  else .fullRecovery

/-- C8: if prevState.tLogs is empty, epochEnd publishes a LogSystem with no log
sets, epochEndVersion = 0, knownCommittedVersion = 0 and stopped = true, and
then blocks forever, never returning normally. -/
theorem c8_brand_new_database (prev : DBCoreState) (h : prev.tLogs = []) :
    ∃ s, epochEndStart prev = .publishAndBlockForever s
      ∧ s.tLogs = [] ∧ s.epochEndVersion = some 0 ∧ s.knownCommittedVersion = 0
      ∧ s.stopped = true ∧ s.logSystemType = prev.logSystemType := by
  have hE : epochEndStart prev = .publishAndBlockForever
      { freshLogSystem with
          logSystemType := prev.logSystemType
          epochEndVersion := some 0
          knownCommittedVersion := 0
          stopped := true } := by
    unfold epochEndStart
    rw [if_pos (by simp [h])]
  exact ⟨_, hE, rfl, rfl, rfl, rfl, rfl⟩

/-- C8 witness: a core state with no tLog sets. -/
theorem c8_witness :
    ∃ s, epochEndStart ⟨[], 0, [], 2⟩ = .publishAndBlockForever s
      ∧ s.tLogs = [] ∧ s.epochEndVersion = some 0 ∧ s.knownCommittedVersion = 0
      ∧ s.stopped = true ∧ s.logSystemType = (⟨[], 0, [], 2⟩ : DBCoreState).logSystemType :=
  c8_brand_new_database ⟨[], 0, [], 2⟩ rfl

/-! Config (de)serialization: getLogSystemConfig (source lines 924-985) and
fromLogSystemConfig (source lines 123-186). -/

-- struct TLogSet of LogSystemConfig: the wire form of a LogSet.  The
-- OptionalInterface values pushed by getLogSystemConfig are the ServerRef values.
structure TLogSet where
  tLogs : List ServerRef
  logRouters : List ServerRef
  tLogWriteAntiQuorum : Nat
  tLogReplicationFactor : Nat
  tLogPolicy : Nat
  tLogLocalities : List Nat
  isLocal : Bool
  hasBestPolicy : Nat
  locality : Int
  startVersion : Int
deriving DecidableEq, Inhabited

structure OldTLogConf where
  tLogs : List TLogSet
  logRouterTags : Int
  epochEnd : Int
deriving DecidableEq, Inhabited

structure LogSystemConfig where
  logSystemType : Int
  expectedLogSets : Int
  logRouterTags : Int
  recruitmentID : Nat
  stopped : Bool
  tLogs : List TLogSet
  oldTLogs : List OldTLogConf
deriving DecidableEq, Inhabited

def logSetToTLogSet (s : LogSet) : TLogSet :=
  ⟨s.logServers, s.logRouters, s.tLogWriteAntiQuorum, s.tLogReplicationFactor,
    s.tLogPolicy, s.tLogLocalities, s.isLocal, s.hasBestPolicy, s.locality, s.startVersion⟩

-- fromLogSystemConfig, current sets (source lines 133-154): copy every field,
-- then filterLocalityDataForPolicy(tLogPolicy, &tLogLocalities).  The
-- updateLocalitySet() call only refreshes an internal cache and is not modelled.
def tLogSetToLogSetCurrent (env : ReplicationEnv) (t : TLogSet) : LogSet :=
  ⟨t.tLogs, t.logRouters, t.tLogWriteAntiQuorum, t.tLogReplicationFactor,
    t.tLogPolicy, env.filterLocalityDataForPolicy t.tLogPolicy t.tLogLocalities,
    t.isLocal, t.hasBestPolicy, t.locality, t.startVersion⟩

-- fromLogSystemConfig, old-generation sets (source lines 158-179): copied
-- verbatim, with no locality filtering.
def tLogSetToLogSetOld (t : TLogSet) : LogSet :=
  ⟨t.tLogs, t.logRouters, t.tLogWriteAntiQuorum, t.tLogReplicationFactor,
    t.tLogPolicy, t.tLogLocalities, t.isLocal, t.hasBestPolicy, t.locality, t.startVersion⟩

def getLogSystemConfig (sys : TagPartitionedLogSystem) : LogSystemConfig :=
  { logSystemType := sys.logSystemType
    expectedLogSets := sys.expectedLogSets
    logRouterTags := sys.logRouterTags
    recruitmentID := sys.recruitmentID
    stopped := sys.stopped
    tLogs := (sys.tLogs.filter (fun s => s.isLocal || sys.remoteLogsWrittenToCoreState)).map
      logSetToTLogSet
    oldTLogs :=
      if sys.recoveryCompleteWrittenToCoreState then []
      else sys.oldLogData.map
        (fun od => ⟨od.tLogs.map logSetToTLogSet, od.logRouterTags, od.epochEnd⟩) }

-- fromLogSystemConfig.  The leading ASSERT makes the construction fail unless
-- logSystemType is 2, or 0 with no tLog sets; a failed assertion is modelled as
-- none.  The dbgid and locality arguments only fill identity fields and are
-- not modelled.
def fromLogSystemConfig (env : ReplicationEnv) (lsConf : LogSystemConfig)
    (excludeRemote : Bool) : Option TagPartitionedLogSystem :=
  if lsConf.logSystemType = 2 ∨ (lsConf.logSystemType = 0 ∧ lsConf.tLogs = []) then
    some
      { freshLogSystem with
          expectedLogSets := lsConf.expectedLogSets
          logRouterTags := lsConf.logRouterTags
          recruitmentID := lsConf.recruitmentID
          stopped := lsConf.stopped
          tLogs := (lsConf.tLogs.filter (fun t => !excludeRemote || t.isLocal)).map
            (tLogSetToLogSetCurrent env)
          oldLogData := lsConf.oldTLogs.map
            (fun o => ⟨o.tLogs.map tLogSetToLogSetOld, o.logRouterTags, o.epochEnd⟩)
          logSystemType := lsConf.logSystemType }
  else none

-- Equivalence on the attributes named by the claim: per-set parameters and
-- handles (all fields of the LogSet list), logRouterTags, recruitmentID, the
-- stopped flag, and the old-generation data.
def observablyEquiv (a b : TagPartitionedLogSystem) : Prop :=
  a.tLogs = b.tLogs ∧ a.logRouterTags = b.logRouterTags
    ∧ a.recruitmentID = b.recruitmentID ∧ a.stopped = b.stopped
    ∧ a.oldLogData = b.oldLogData

instance (a b : TagPartitionedLogSystem) : Decidable (observablyEquiv a b) := by
  unfold observablyEquiv
  infer_instance

theorem tLogSet_old_roundtrip (s : LogSet) : tLogSetToLogSetOld (logSetToTLogSet s) = s := rfl

theorem tLogSet_current_roundtrip (env : ReplicationEnv) (s : LogSet)
    (h : env.filterLocalityDataForPolicy s.tLogPolicy s.tLogLocalities = s.tLogLocalities) :
    tLogSetToLogSetCurrent env (logSetToTLogSet s) = s := by
  cases s
  simp only [tLogSetToLogSetCurrent, logSetToTLogSet] at *
  rw [h]

/-- C7 (amended): fromLogSystemConfig(getLogSystemConfig(L)) is equivalent to L
on every attribute the claim lists, provided logSystemType is 2, every tLog set
is local or remoteLogsWrittenToCoreState holds (otherwise getLogSystemConfig
omits non-local sets), recoveryCompleteWrittenToCoreState is false (otherwise
the old-generation data is omitted), and each current set's localities are a
fixed point of filterLocalityDataForPolicy (fromLogSystemConfig re-filters
them). -/
theorem c7_roundtrip (env : ReplicationEnv) (sys : TagPartitionedLogSystem)
    (hType : sys.logSystemType = 2)
    (hIncl : ∀ s ∈ sys.tLogs, s.isLocal = true ∨ sys.remoteLogsWrittenToCoreState = true)
    (hRec : sys.recoveryCompleteWrittenToCoreState = false)
    (hFix : ∀ s ∈ sys.tLogs,
      env.filterLocalityDataForPolicy s.tLogPolicy s.tLogLocalities = s.tLogLocalities) :
    ∃ L, fromLogSystemConfig env (getLogSystemConfig sys) false = some L
      ∧ observablyEquiv sys L := by
  have hcond : (getLogSystemConfig sys).logSystemType = 2 ∨
      ((getLogSystemConfig sys).logSystemType = 0 ∧ (getLogSystemConfig sys).tLogs = []) :=
    Or.inl hType
  unfold fromLogSystemConfig
  rw [if_pos hcond]
  refine ⟨_, rfl, ?_, rfl, rfl, rfl, ?_⟩
  · show sys.tLogs = _
    have hfilter : sys.tLogs.filter (fun s => s.isLocal || sys.remoteLogsWrittenToCoreState)
        = sys.tLogs := by
      rw [List.filter_eq_self]
      intro s hs
      rcases hIncl s hs with h | h <;> simp [h]
    show sys.tLogs =
      (((getLogSystemConfig sys).tLogs.filter (fun t => !false || t.isLocal)).map
        (tLogSetToLogSetCurrent env))
    have htrue : ((getLogSystemConfig sys).tLogs.filter (fun t => !false || t.isLocal))
        = (getLogSystemConfig sys).tLogs := by
      rw [List.filter_eq_self]
      intro t _
      rfl
    rw [htrue]
    show sys.tLogs =
      ((sys.tLogs.filter (fun s => s.isLocal || sys.remoteLogsWrittenToCoreState)).map
          logSetToTLogSet).map (tLogSetToLogSetCurrent env)
    rw [hfilter, List.map_map]
    have : ∀ s ∈ sys.tLogs, (tLogSetToLogSetCurrent env ∘ logSetToTLogSet) s = id s := by
      intro s hs
      exact tLogSet_current_roundtrip env s (hFix s hs)
    rw [List.map_congr_left this, List.map_id]
  · show sys.oldLogData = _
    show sys.oldLogData =
      ((getLogSystemConfig sys).oldTLogs.map
        (fun o => (⟨o.tLogs.map tLogSetToLogSetOld, o.logRouterTags, o.epochEnd⟩ : OldLogData)))
    show sys.oldLogData =
      ((if sys.recoveryCompleteWrittenToCoreState then []
        else sys.oldLogData.map
          (fun od => (⟨od.tLogs.map logSetToTLogSet, od.logRouterTags, od.epochEnd⟩ : OldTLogConf))).map
        (fun o => (⟨o.tLogs.map tLogSetToLogSetOld, o.logRouterTags, o.epochEnd⟩ : OldLogData)))
    rw [hRec, if_neg (by simp), List.map_map]
    have : ∀ od ∈ sys.oldLogData,
        ((fun o => (⟨o.tLogs.map tLogSetToLogSetOld, o.logRouterTags, o.epochEnd⟩ : OldLogData)) ∘
          (fun od => (⟨od.tLogs.map logSetToTLogSet, od.logRouterTags, od.epochEnd⟩ : OldTLogConf)))
          od = id od := by
      intro od _
      cases od with
      | mk ts rt ee =>
        simp only [Function.comp, id]
        rw [List.map_map]
        have h2 : ∀ s ∈ ts, (tLogSetToLogSetOld ∘ logSetToTLogSet) s = id s := by
          intro s _
          exact tLogSet_old_roundtrip s
        rw [List.map_congr_left h2, List.map_id]
    rw [List.map_congr_left this, List.map_id]

/-- C7 witness: a system of one local set plus one old generation, with
filter-invariant localities under envTrue, round-trips to an observably
equivalent system. -/
theorem c7_witness :
    ∃ L, fromLogSystemConfig envTrue
        (getLogSystemConfig
          ⟨2, [⟨[⟨1, true⟩, ⟨2, true⟩], [⟨5, true⟩], 0, 2, 3, [10, 20], true, 1, 0, 50⟩],
            1, 4, 77, true, false, false, some 99, 98,
            [⟨[⟨[⟨8, false⟩], [], 0, 1, 3, [30], true, 1, 0, 0⟩], 2, 49⟩]⟩)
        false = some L
      ∧ observablyEquiv
          ⟨2, [⟨[⟨1, true⟩, ⟨2, true⟩], [⟨5, true⟩], 0, 2, 3, [10, 20], true, 1, 0, 50⟩],
            1, 4, 77, true, false, false, some 99, 98,
            [⟨[⟨[⟨8, false⟩], [], 0, 1, 3, [30], true, 1, 0, 0⟩], 2, 49⟩]⟩ L :=
  c7_roundtrip envTrue
    ⟨2, [⟨[⟨1, true⟩, ⟨2, true⟩], [⟨5, true⟩], 0, 2, 3, [10, 20], true, 1, 0, 50⟩],
      1, 4, 77, true, false, false, some 99, 98,
      [⟨[⟨[⟨8, false⟩], [], 0, 1, 3, [30], true, 1, 0, 0⟩], 2, 49⟩]⟩
    rfl (by decide) rfl (by decide)

/-- C7 counterexample: the claim fails for a LogSystem holding a non-local set
while remoteLogsWrittenToCoreState is still false (the state newRemoteEpoch
creates): getLogSystemConfig omits the set, so the round trip yields a system
with no tLog sets, which is not equivalent to the original on the log-server
handles. -/
theorem c7_roundtrip_counterexample :
    fromLogSystemConfig envTrue
        (getLogSystemConfig
          ⟨2, [⟨[⟨9, true⟩], [], 0, 1, 0, [10], false, 1, 5, 0⟩],
            0, 0, 0, false, false, false, none, 0, []⟩)
        false =
      some { freshLogSystem with logSystemType := 2 }
    ∧ ¬ observablyEquiv
        ⟨2, [⟨[⟨9, true⟩], [], 0, 1, 0, [10], false, 1, 5, 0⟩],
          0, 0, 0, false, false, false, none, 0, []⟩
        { freshLogSystem with logSystemType := 2 } := by
  exact ⟨by decide, by decide⟩

/-! Peek (source lines 411-583).  Cursors are modelled as the constructor
arguments the source passes; the cursor runtime behaviour lives outside this
file's claims. -/

inductive PeekCursor where
  | server (interf : Option ServerRef) (tag : Tag) (begin endV : Int)
      (returnIfBlocked parallelGetMore : Bool)
  | set (localSets : List LogSet) (bestSet : Int) (bestServer : Int) (tag : Tag)
      (begin endV : Int) (parallelGetMore : Bool)
  | mergedRouters (routers : List ServerRef) (readQuorum : Nat) (tag : Tag)
      (begin endV : Int)
  | mergedTags (cursors : List PeekCursor) (begin : Int) (collectTags : Bool)
  | multi (cursors : List PeekCursor) (epochEnds : List Int)

inductive PeekErr where
  | workerRemoved
deriving DecidableEq

def getEnd (sys : TagPartitionedLogSystem) : Int := sys.epochEndVersion.getD 0 + 1

def getPeekEnd (sys : TagPartitionedLogSystem) : Int :=
  match sys.epochEndVersion with
  | some v => v + 1
  | none => maxVersion

-- The locality test of source lines 420, 465, 589 etc.
def localityMatch (log : LogSet) (tag : Tag) : Bool :=
  log.locality == tag.locality || tag.locality == tagLocalitySpecial
    || log.locality == tagLocalitySpecial || log.locality == tagLocalityUpgraded

-- The sets collected by the scan loop of peekAll: local with nonempty servers.
def peekLocalSets (logs : List LogSet) : List LogSet :=
  logs.filter (fun l => l.isLocal && !l.logServers.isEmpty)

-- lastBegin (resp. thisBegin, which starts from begin): max of startVersion over
-- the collected sets.  It does not depend on the tag.
def lastBeginOf (init : Int) (logs : List LogSet) : Int :=
  (peekLocalSets logs).foldl (fun acc l => max acc l.startVersion) init

-- The bestSet / nextBestSet selection over the collected local sets: a later
-- matching set overwrites bestSet; the first set with hasBestPolicy becomes
-- nextBestSet while bestSet is still -1.
def bestScan (tag : Tag) (sets : List LogSet) : Int × Int :=
  sets.enum.foldl
    (fun acc p =>
      if p.2.hasBestPolicy != 0 && localityMatch p.2 tag then ((p.1 : Int), (p.1 : Int))
      else if p.2.hasBestPolicy != 0 && acc.1 == -1 then (acc.1, (p.1 : Int))
      else acc)
    (-1, -1)

-- bestSet >= 0 ? localSets[bestSet]->bestLocationFor(tag) : -1
def bestServerFor (env : ReplicationEnv) (localSets : List LogSet) (bestSet : Int)
    (tag : Tag) : Int :=
  if 0 ≤ bestSet then env.bestLocationFor (localSets.getD bestSet.toNat default) tag else -1

-- The while loop of peekAll over oldLogData (source lines 443-487), with the
-- accumulated cursors and epoch-end boundaries threaded through.
def peekAllOldLoop (env : ReplicationEnv) (begin endV : Int) (tag : Tag)
    (parallelGetMore throwIfDead : Bool) (peekEnd : Int) :
    List OldLogData → Int → List PeekCursor → List Int → Except PeekErr PeekCursor
  | olds, lastBegin, cursors, epochEnds =>
    if begin < lastBegin then
      match olds with
      | [] =>
        if tag = txsTag then .ok (.multi cursors epochEnds)
        else if throwIfDead then .error .workerRemoved
        else .ok (.server none tag begin peekEnd false false)
      | old :: rest =>
        let localOldSets := peekLocalSets old.tLogs
        let thisBegin := lastBeginOf begin old.tLogs
        let bests := bestScan tag localOldSets
        if thisBegin < lastBegin then
          if thisBegin < endV then
            peekAllOldLoop env begin endV tag parallelGetMore throwIfDead peekEnd rest thisBegin
              (cursors ++
                [.set localOldSets (if bests.1 == -1 then bests.2 else bests.1)
                  (bestServerFor env localOldSets bests.1 tag) tag thisBegin
                  (min lastBegin endV) parallelGetMore])
              (epochEnds ++ [min lastBegin endV])
          else
            peekAllOldLoop env begin endV tag parallelGetMore throwIfDead peekEnd rest thisBegin
              cursors epochEnds
        else
          peekAllOldLoop env begin endV tag parallelGetMore throwIfDead peekEnd rest lastBegin
            cursors epochEnds
    else .ok (.multi cursors epochEnds)

def peekAll (env : ReplicationEnv) (sys : TagPartitionedLogSystem) (begin endV : Int)
    (tag : Tag) (parallelGetMore throwIfDead : Bool) : Except PeekErr PeekCursor :=
  let localSets := peekLocalSets sys.tLogs
  let lastBegin := lastBeginOf 0 sys.tLogs
  let bests := bestScan tag localSets
  if lastBegin ≤ begin then
    .ok (.set localSets (if bests.1 == -1 then bests.2 else bests.1)
      (bestServerFor env localSets bests.1 tag) tag begin endV parallelGetMore)
  else
    peekAllOldLoop env begin endV tag parallelGetMore throwIfDead (getPeekEnd sys)
      sys.oldLogData lastBegin
      (if lastBegin < endV then
        [.set localSets (if bests.1 == -1 then bests.2 else bests.1)
          (bestServerFor env localSets bests.1 tag) tag lastBegin endV parallelGetMore]
       else [])
      []

/-! peekRemote (source lines 491-553). -/

-- The scan loop of peekRemote: lastBegin over the local sets, bestSet the set
-- carrying log routers (the source asserts there is at most one; the model
-- keeps the last). -/
def remoteScan (init : Int) (logs : List LogSet) : Int × Int :=
  logs.enum.foldl
    (fun acc p =>
      let lastBegin1 := if p.2.isLocal then max acc.2 p.2.startVersion else acc.2
      let best1 := if !p.2.logRouters.isEmpty then (p.1 : Int) else acc.1
      (best1, lastBegin1))
    (-1, init)

def peekRemoteOldLoop (tag : Tag) (begin peekEnd : Int) :
    List OldLogData → Int → List PeekCursor → List Int → PeekCursor
  | olds, lastBegin, cursors, epochEnds =>
    if begin < lastBegin then
      match olds with
      | [] => .server none tag begin peekEnd false false
      | old :: rest =>
        let scan := remoteScan begin old.tLogs
        if scan.1 == -1 then .server none tag begin peekEnd false false
        else if scan.2 < lastBegin then
          peekRemoteOldLoop tag begin peekEnd rest scan.2
            (cursors ++
              [.mergedRouters (old.tLogs.getD scan.1.toNat default).logRouters
                (old.tLogs.getD scan.1.toNat default).logRouters.length tag scan.2 lastBegin])
            (epochEnds ++ [lastBegin])
        else peekRemoteOldLoop tag begin peekEnd rest lastBegin cursors epochEnds
    else .multi cursors epochEnds

def peekRemote (sys : TagPartitionedLogSystem) (begin : Int) (tag : Tag) : PeekCursor :=
  let scan := remoteScan 0 sys.tLogs
  if scan.1 == -1 then .server none tag begin (getPeekEnd sys) false false
  else if scan.2 ≤ begin then
    .mergedRouters (sys.tLogs.getD scan.1.toNat default).logRouters
      (sys.tLogs.getD scan.1.toNat default).logRouters.length tag begin (getPeekEnd sys)
  else
    peekRemoteOldLoop tag begin (getPeekEnd sys) sys.oldLogData scan.2
      [.mergedRouters (sys.tLogs.getD scan.1.toNat default).logRouters
        (sys.tLogs.getD scan.1.toNat default).logRouters.length tag scan.2 (getPeekEnd sys)]
      []

-- virtual peek(dbgid, begin, tag, parallelGetMore) (source lines 555-566).
def peek (env : ReplicationEnv) (sys : TagPartitionedLogSystem) (begin : Int) (tag : Tag)
    (parallelGetMore : Bool) : Except PeekErr PeekCursor :=
  if sys.tLogs.isEmpty then .ok (.server none tag begin (getPeekEnd sys) false false)
  else if tag.locality = tagLocalityRemoteLog then .ok (peekRemote sys begin tag)
  else peekAll env sys begin (getPeekEnd sys) tag parallelGetMore false

-- virtual peek(dbgid, begin, tags, parallelGetMore) (source lines 568-583).
def peekTags (env : ReplicationEnv) (sys : TagPartitionedLogSystem) (begin : Int)
    (tags : List Tag) (parallelGetMore : Bool) : Except PeekErr PeekCursor :=
  if tags.isEmpty then .ok (.server none invalidTag begin (getPeekEnd sys) false false)
  else if tags.length = 1 then peek env sys begin (tags.getD 0 invalidTag) parallelGetMore
  else
    (tags.mapM (fun t => peek env sys begin t parallelGetMore)).map
      (fun cursors =>
        .mergedTags cursors begin
          (!sys.tLogs.isEmpty && ((sys.tLogs.getD 0 default).locality == tagLocalityUpgraded)))

theorem peekAllOldLoop_dead (env : ReplicationEnv) (begin endV : Int) (tag : Tag)
    (parallelGetMore throwIfDead : Bool) (peekEnd : Int) (olds : List OldLogData)
    (lastBegin : Int) (cursors : List PeekCursor) (epochEnds : List Int)
    (hB : begin < lastBegin)
    (hOld : ∀ old ∈ olds, begin < lastBeginOf begin old.tLogs) :
    (tag ≠ txsTag →
      peekAllOldLoop env begin endV tag parallelGetMore throwIfDead peekEnd olds lastBegin
          cursors epochEnds =
        (if throwIfDead then .error .workerRemoved
         else .ok (.server none tag begin peekEnd false false)))
    ∧ (tag = txsTag → ∃ cs es,
      peekAllOldLoop env begin endV tag parallelGetMore throwIfDead peekEnd olds lastBegin
          cursors epochEnds = .ok (.multi cs es)) := by
  induction olds generalizing lastBegin cursors epochEnds with
  | nil =>
    constructor
    · intro hTx
      rw [peekAllOldLoop, if_pos hB]
      rw [if_neg hTx]
    · intro hTx
      rw [peekAllOldLoop, if_pos hB, if_pos hTx]
      exact ⟨cursors, epochEnds, rfl⟩
  | cons old rest ih =>
    have hThis : begin < lastBeginOf begin old.tLogs := hOld old (List.mem_cons_self old rest)
    have hRest : ∀ o ∈ rest, begin < lastBeginOf begin o.tLogs := by
      intro o ho
      exact hOld o (List.mem_cons_of_mem old ho)
    rw [peekAllOldLoop, if_pos hB]
    by_cases h1 : lastBeginOf begin old.tLogs < lastBegin
    · rw [if_pos h1]
      by_cases h2 : lastBeginOf begin old.tLogs < endV
      · rw [if_pos h2]
        exact ih _ _ _ hThis hRest
      · rw [if_neg h2]
        exact ih _ _ _ hThis hRest
    · rw [if_neg h1]
      exact ih _ _ _ hB hRest

/-- C6 (amended): when the tag's locality is not RemoteLog and begin lies below
the version range covered by the current local sets and below every recorded
old generation, peekAll with throwIfDead = true fails with WorkerRemoved for
non-txs tags; the public peek, which calls peekAll with throwIfDead = false,
instead returns an empty ServerPeekCursor over the range from begin to
getPeekEnd(); for the txs tag the walk stops silently and a MultiCursor of the
covered ranges is returned without error. -/
theorem c6_peek_past_generations (env : ReplicationEnv) (sys : TagPartitionedLogSystem)
    (begin endV : Int) (tag : Tag) (parallelGetMore : Bool)
    (hLoc : tag.locality ≠ tagLocalityRemoteLog)
    (hTx : tag ≠ txsTag)
    (hB : begin < lastBeginOf 0 sys.tLogs)
    (hOld : ∀ old ∈ sys.oldLogData, begin < lastBeginOf begin old.tLogs) :
    peekAll env sys begin endV tag parallelGetMore true = .error .workerRemoved
    ∧ peek env sys begin tag parallelGetMore =
        .ok (.server none tag begin (getPeekEnd sys) false false)
    ∧ (∃ cs es, peekAll env sys begin endV txsTag parallelGetMore true = .ok (.multi cs es)) := by
  refine ⟨?_, ?_, ?_⟩
  · simp only [peekAll]
    rw [if_neg (show ¬ lastBeginOf 0 sys.tLogs ≤ begin by omega)]
    exact (peekAllOldLoop_dead env begin endV tag parallelGetMore true (getPeekEnd sys)
      sys.oldLogData (lastBeginOf 0 sys.tLogs) _ [] hB hOld).1 hTx
  · rw [peek]
    by_cases hEmpty : sys.tLogs.isEmpty
    · rw [if_pos hEmpty]
    · rw [if_neg hEmpty, if_neg hLoc]
      simp only [peekAll]
      rw [if_neg (show ¬ lastBeginOf 0 sys.tLogs ≤ begin by omega)]
      exact (peekAllOldLoop_dead env begin (getPeekEnd sys) tag parallelGetMore false
        (getPeekEnd sys) sys.oldLogData (lastBeginOf 0 sys.tLogs) _ [] hB hOld).1 hTx
  · simp only [peekAll]
    rw [if_neg (show ¬ lastBeginOf 0 sys.tLogs ≤ begin by omega)]
    exact (peekAllOldLoop_dead env begin endV txsTag parallelGetMore true (getPeekEnd sys)
      sys.oldLogData (lastBeginOf 0 sys.tLogs) _ [] hB hOld).2 rfl

/-- C6 witness: one local set with startVersion 100, no old generations, a
non-txs primary tag and begin 50. -/
theorem c6_witness :
    ((50 : Int) < lastBeginOf 0
        [⟨[⟨1, true⟩], [], 0, 1, 0, [10], true, 1, 0, 100⟩])
    ∧ peekAll envTrue
        ⟨2, [⟨[⟨1, true⟩], [], 0, 1, 0, [10], true, 1, 0, 100⟩],
          1, 0, 0, false, false, false, none, 0, []⟩ 50 maxVersion ⟨0, 5⟩ false true =
        .error .workerRemoved
    ∧ peek envTrue
        ⟨2, [⟨[⟨1, true⟩], [], 0, 1, 0, [10], true, 1, 0, 100⟩],
          1, 0, 0, false, false, false, none, 0, []⟩ 50 ⟨0, 5⟩ false =
        .ok (.server none ⟨0, 5⟩ 50
          (getPeekEnd ⟨2, [⟨[⟨1, true⟩], [], 0, 1, 0, [10], true, 1, 0, 100⟩],
            1, 0, 0, false, false, false, none, 0, []⟩) false false) := by
  have h := c6_peek_past_generations envTrue
    ⟨2, [⟨[⟨1, true⟩], [], 0, 1, 0, [10], true, 1, 0, 100⟩],
      1, 0, 0, false, false, false, none, 0, []⟩ 50 maxVersion ⟨0, 5⟩ false
    (by decide) (by decide) (by decide) (by intro old hOld; simp at hOld)
  exact ⟨by decide, h.1, h.2.1⟩

/-- C6 counterexample: the claim says such a peek "is fatal: it fails with
WorkerRemoved", but peek passes throwIfDead = false to peekAll; on a system
with one local set starting at version 100, no old generations, non-txs tag
(0, 5) of non-RemoteLog locality, and begin 50 below everything, peek returns a
successful empty ServerPeekCursor instead of failing. -/
theorem c6_peek_returns_empty_counterexample :
    peek envTrue
        ⟨2, [⟨[⟨1, true⟩], [], 0, 1, 0, [10], true, 1, 0, 100⟩],
          1, 0, 0, false, false, false, none, 0, []⟩ 50 ⟨0, 5⟩ false =
      .ok (.server none ⟨0, 5⟩ 50 maxVersion false false)
    ∧ (Tag.mk 0 5 ≠ txsTag ∧ (Tag.mk 0 5).locality ≠ tagLocalityRemoteLog) :=
  ⟨rfl, by decide, by decide⟩

/-- C10: peek with no tLog sets, and the tag-vector peek with an empty tag
list, both return an empty ServerPeekCursor (no server interface, from begin to
getPeekEnd()) rather than throwing. -/
theorem c10_peek_empty_cursor (env : ReplicationEnv) (sys : TagPartitionedLogSystem)
    (begin : Int) (tag : Tag) (tags : List Tag) (parallelGetMore : Bool) :
    (sys.tLogs = [] →
      peek env sys begin tag parallelGetMore =
        .ok (.server none tag begin (getPeekEnd sys) false false))
    ∧ (tags = [] →
      peekTags env sys begin tags parallelGetMore =
        .ok (.server none invalidTag begin (getPeekEnd sys) false false)) := by
  constructor
  · intro h
    rw [peek, if_pos (by rw [h]; rfl)]
  · intro h
    rw [peekTags, if_pos (by rw [h]; rfl)]

/-- C10 witness: a system with no tLog sets and an empty tag list. -/
theorem c10_witness :
    peek envTrue ⟨0, [], 0, 0, 0, false, false, false, none, 0, []⟩ 7 ⟨0, 5⟩ false =
      .ok (.server none ⟨0, 5⟩ 7
        (getPeekEnd ⟨0, [], 0, 0, 0, false, false, false, none, 0, []⟩) false false)
    ∧ peekTags envTrue ⟨0, [], 0, 0, 0, false, false, false, none, 0, []⟩ 7 [] false =
      .ok (.server none invalidTag 7
        (getPeekEnd ⟨0, [], 0, 0, 0, false, false, false, none, 0, []⟩) false false) :=
  ⟨(c10_peek_empty_cursor envTrue ⟨0, [], 0, 0, 0, false, false, false, none, 0, []⟩
      7 ⟨0, 5⟩ [] false).1 rfl,
    (c10_peek_empty_cursor envTrue ⟨0, [], 0, 0, 0, false, false, false, none, 0, []⟩
      7 ⟨0, 5⟩ [] false).2 rfl⟩

/-! Pop (source lines 769-840): pop, popLogRouter and the popFromLog actor, as
a transition system over the outstandingPops map and the set of live popFromLog
tasks.  Each task is split at its suspension points: a wake step (the delay
expires: read the entry, erase-and-exit, exit because the interface is absent,
or issue the pop RPC) and a reply step (the RPC resolves or fails).  The pop
request hits the wire when getReply is invoked, i.e. during the wake step, so
the sent log is appended there. -/

-- One live popFromLog actor: its target server and tag, the `last` variable,
-- the in-flight request if the actor is suspended on getReply, and (for
-- specification purposes) the upTo values this actor has sent so far.
structure PopTask where
  server : Nat
  tag : Tag
  last : Int
  sending : Option (Int × Int)
  sentHist : List Int
deriving DecidableEq

structure PopState where
  pops : Nat × Tag → Option (Int × Int)
  tasks : List PopTask
  sentLog : List ((Nat × Tag) × Int)

def initPop : PopState := { pops := fun _ => none, tasks := [], sentLog := [] }

def taskKey (t : PopTask) : Nat × Tag := (t.server, t.tag)

-- The body of the per-server loop shared by pop (lines 805-813) and
-- popLogRouter (lines 773-779, 786-792).  outstandingPops[key] default-inserts
-- (0, 0) when the key is absent; the read value is prev.  If prev < upTo the
-- entry is upgraded in place; if prev == 0 a popFromLog task is spawned.
def popOne (tag : Tag) (upTo kcv : Int) (st : PopState) (sid : Nat) : PopState :=
  let key := (sid, tag)
  let prev := ((st.pops key).getD (0, 0)).1
  { pops := fun k =>
      if k = key then
        (if prev < upTo then some (upTo, kcv) else some ((st.pops key).getD (0, 0)))
      else st.pops k
    tasks := if prev = 0 then st.tasks ++ [⟨sid, tag, 0, none, []⟩] else st.tasks
    sentLog := st.sentLog }

-- pop targets every log server of every set (source line 805 has no isLocal
-- filter); popLogRouter targets the log routers of every current and old set
-- whose locality equals popLocality.
def popTargets (sys : TagPartitionedLogSystem) : List Nat :=
  sys.tLogs.flatMap (fun t => t.logServers.map (fun s => s.id))

def popRouterTargets (sys : TagPartitionedLogSystem) (popLocality : Int) : List Nat :=
  (sys.tLogs.filter (fun t => t.locality == popLocality)).flatMap
      (fun t => t.logRouters.map (fun s => s.id))
    ++ sys.oldLogData.flatMap (fun old =>
        (old.tLogs.filter (fun t => t.locality == popLocality)).flatMap
          (fun t => t.logRouters.map (fun s => s.id)))

-- void popLogRouter(upTo, tag, knownCommittedVersion, popLocality): if (!upTo) return.
def popLogRouter (sys : TagPartitionedLogSystem) (upTo : Int) (tag : Tag) (kcv : Int)
    (popLocality : Int) (st : PopState) : PopState :=
  if upTo = 0 then st
  else (popRouterTargets sys popLocality).foldl (popOne tag upTo kcv) st

-- virtual void pop(upTo, tag, knownCommittedVersion, popLocality): if (upTo <= 0)
-- return; RemoteLog tags delegate to popLogRouter.  (The ASSERT on popLocality
-- in the non-router branch is not modelled.)
def pop (sys : TagPartitionedLogSystem) (upTo : Int) (tag : Tag) (kcv : Int)
    (popLocality : Int) (st : PopState) : PopState :=
  if upTo ≤ 0 then st
  else if tag.locality = tagLocalityRemoteLog then popLogRouter sys upTo tag kcv popLocality st
  else (popTargets sys).foldl (popOne tag upTo kcv) st

-- The popFromLog actor body after wait(delay(time)) (source lines 818-831):
-- read to = outstandingPops[key] (a default insert when absent); if
-- to.first <= last, erase the entry and return; if the interface is absent,
-- return leaving the entry; otherwise issue the pop RPC with to.
def popFromLogWake (st : PopState) (i : Nat) (present : Bool) : Option PopState :=
  match st.tasks.get? i with
  | none => none
  | some t =>
    match t.sending with
    | some _ => none
    | none =>
      let key := taskKey t
      let toV := (st.pops key).getD (0, 0)
      if toV.1 ≤ t.last then
        some { pops := fun k => if k = key then none else st.pops k
               tasks := st.tasks.eraseIdx i
               sentLog := st.sentLog }
      else if present then
        some { pops := fun k => if k = key then some toV else st.pops k
               tasks := st.tasks.set i { t with sending := some toV, sentHist := t.sentHist ++ [toV.1] }
               sentLog := st.sentLog ++ [(key, toV.1)] }
      else
        some { pops := fun k => if k = key then some toV else st.pops k
               tasks := st.tasks.eraseIdx i
               sentLog := st.sentLog }

-- wait(popMessages.getReply(...)) succeeds: last = to.first, loop again.
def popFromLogReplyOk (st : PopState) (i : Nat) : Option PopState :=
  match st.tasks.get? i with
  | none => none
  | some t =>
    match t.sending with
    | some toV => some { st with tasks := st.tasks.set i { t with last := toV.1, sending := none } }
    | none => none

-- The getReply fails (other than cancellation): the actor returns, leaving the
-- entry filled in so no further pops target this server from this LogSystem.
def popFromLogReplyErr (st : PopState) (i : Nat) : Option PopState :=
  match st.tasks.get? i with
  | none => none
  | some t =>
    match t.sending with
    | some _ => some { st with tasks := st.tasks.eraseIdx i }
    | none => none

inductive PopEvent where
  | callPop (upTo : Int) (tag : Tag) (kcv : Int) (popLocality : Int)
  | callPopLogRouter (upTo : Int) (tag : Tag) (kcv : Int) (popLocality : Int)
  | wake (i : Nat) (present : Bool)
  | replyOk (i : Nat)
  | replyErr (i : Nat)
deriving DecidableEq

-- In the repository popLogRouter is reached only through pop, which has already
-- checked upTo > 0; the event additionally admits upTo = 0, which the guard
-- inside popLogRouter turns into a no-op.  Negative upTo never reaches
-- popLogRouter and is excluded.
def applyPopEvent (sys : TagPartitionedLogSystem) : PopEvent → PopState → Option PopState
  | .callPop upTo tag kcv popLocality, st => some (pop sys upTo tag kcv popLocality st)
  | .callPopLogRouter upTo tag kcv popLocality, st =>
    if 0 ≤ upTo then some (popLogRouter sys upTo tag kcv popLocality st) else none
  | .wake i present, st => popFromLogWake st i present
  | .replyOk i, st => popFromLogReplyOk st i
  | .replyErr i, st => popFromLogReplyErr st i

def runPopEvents (sys : TagPartitionedLogSystem) : List PopEvent → PopState → Option PopState
  | [], st => some st
  | e :: es, st =>
    match applyPopEvent sys e st with
    | some st1 => runPopEvents sys es st1
    | none => none

inductive PopReachable (sys : TagPartitionedLogSystem) : PopState → Prop
  | initR : PopReachable sys initPop
  | stepR {s s' : PopState} {e : PopEvent} : PopReachable sys s →
      applyPopEvent sys e s = some s' → PopReachable sys s'

-- The upTo values sent to one (server, tag) pair, in order.
def sentFor (st : PopState) (k : Nat × Tag) : List Int :=
  st.sentLog.filterMap (fun e => if e.1 = k then some e.2 else none)

-- The number of live popFromLog tasks for one (server, tag) pair.
def keyCount (ts : List PopTask) (k : Nat × Tag) : Nat :=
  (ts.filter (fun t => decide (taskKey t = k))).length

/-- C9: pop with upTo ≤ 0 returns immediately leaving the state unchanged (no
outstandingPops entry created or modified, no popFromLog task spawned), and
popLogRouter with upTo = 0 likewise. -/
theorem c9_pop_noop (sys : TagPartitionedLogSystem) (upTo : Int) (tag : Tag) (kcv : Int)
    (popLocality : Int) (st : PopState) (h : upTo ≤ 0) :
    pop sys upTo tag kcv popLocality st = st
    ∧ popLogRouter sys 0 tag kcv popLocality st = st := by
  constructor
  · rw [pop, if_pos h]
  · rw [popLogRouter, if_pos rfl]

/-- C9 witness: pop with upTo = 0 and with upTo = -3 leave the initial state
unchanged, as does popLogRouter with upTo = 0. -/
theorem c9_witness :
    pop freshLogSystem 0 ⟨0, 1⟩ 5 tagLocalityInvalid initPop = initPop
    ∧ pop freshLogSystem (-3) ⟨0, 1⟩ 5 tagLocalityInvalid initPop = initPop
    ∧ popLogRouter freshLogSystem 0 ⟨0, 1⟩ 5 tagLocalityInvalid initPop = initPop :=
  ⟨(c9_pop_noop freshLogSystem 0 ⟨0, 1⟩ 5 tagLocalityInvalid initPop (by decide)).1,
    (c9_pop_noop freshLogSystem (-3) ⟨0, 1⟩ 5 tagLocalityInvalid initPop (by decide)).1,
    (c9_pop_noop freshLogSystem 0 ⟨0, 1⟩ 5 tagLocalityInvalid initPop (by decide)).2⟩

/-! Invariants of the pop transition system. -/

-- The version no send by this task may fall below: the in-flight request's
-- upTo while suspended on getReply, `last` otherwise.
def taskBound (t : PopTask) : Int :=
  match t.sending with
  | some toV => toV.1
  | none => t.last

def TaskOK (t : PopTask) : Prop :=
  0 ≤ t.last ∧ List.Chain' (· < ·) t.sentHist
    ∧ (∀ x ∈ t.sentHist, x ≤ taskBound t)
    ∧ (∀ toV, t.sending = some toV → t.last < toV.1)

def PopInv (s : PopState) : Prop :=
  (∀ k v, s.pops k = some v → 0 < v.1)
    ∧ (∀ t ∈ s.tasks, TaskOK t)
    ∧ (∀ t ∈ s.tasks, s.pops (taskKey t) ≠ none)
    ∧ (∀ k, keyCount s.tasks k ≤ 1)

theorem keyCount_nil (k : Nat × Tag) : keyCount [] k = 0 := rfl

theorem keyCount_cons (a : PopTask) (ts : List PopTask) (k : Nat × Tag) :
    keyCount (a :: ts) k = (if taskKey a = k then 1 else 0) + keyCount ts k := by
  unfold keyCount
  rw [List.filter_cons]
  by_cases h : taskKey a = k
  · rw [if_pos (decide_eq_true h), if_pos h, List.length_cons]
    omega
  · rw [if_neg (by simpa using h), if_neg h]
    omega

theorem keyCount_append (a b : List PopTask) (k : Nat × Tag) :
    keyCount (a ++ b) k = keyCount a k + keyCount b k := by
  unfold keyCount
  rw [List.filter_append, List.length_append]

theorem keyCount_eq_zero (ts : List PopTask) (k : Nat × Tag)
    (h : ∀ t ∈ ts, taskKey t ≠ k) : keyCount ts k = 0 := by
  unfold keyCount
  rw [List.length_eq_zero, List.filter_eq_nil_iff]
  intro t ht
  simp [h t ht]

theorem keyCount_pos (ts : List PopTask) (k : Nat × Tag) (t : PopTask)
    (ht : t ∈ ts) (hk : taskKey t = k) : 1 ≤ keyCount ts k := by
  have hmem : t ∈ ts.filter (fun t => decide (taskKey t = k)) := by
    rw [List.mem_filter]
    exact ⟨ht, by simp [hk]⟩
  exact List.length_pos.mpr (List.ne_nil_of_mem hmem)

theorem keyCount_eraseIdx_le (ts : List PopTask) (i : Nat) (k : Nat × Tag) :
    keyCount (ts.eraseIdx i) k ≤ keyCount ts k :=
  List.Sublist.length_le (List.Sublist.filter _ (List.eraseIdx_sublist ts i))

theorem keyCount_eraseIdx_get (ts : List PopTask) (i : Nat) (t : PopTask)
    (h : ts.get? i = some t) :
    keyCount ts (taskKey t) = keyCount (ts.eraseIdx i) (taskKey t) + 1 := by
  induction ts generalizing i with
  | nil => simp at h
  | cons a rest ih =>
    cases i with
    | zero =>
      rw [List.get?] at h
      injection h with h
      subst h
      rw [List.eraseIdx, keyCount_cons, if_pos rfl]
      omega
    | succ n =>
      rw [List.get?] at h
      rw [List.eraseIdx, keyCount_cons, keyCount_cons, ih n h]
      omega

theorem keyCount_set_same (ts : List PopTask) (i : Nat) (t u : PopTask)
    (h : ts.get? i = some t) (hk : taskKey u = taskKey t) (k : Nat × Tag) :
    keyCount (ts.set i u) k = keyCount ts k := by
  induction ts generalizing i with
  | nil => simp at h
  | cons a rest ih =>
    cases i with
    | zero =>
      rw [List.get?] at h
      injection h with h
      subst h
      rw [List.set, keyCount_cons, keyCount_cons, hk]
    | succ n =>
      rw [List.get?] at h
      rw [List.set, keyCount_cons, keyCount_cons, ih n h]

theorem mem_of_mem_eraseIdx {ts : List PopTask} {i : Nat} {t : PopTask}
    (h : t ∈ ts.eraseIdx i) : t ∈ ts :=
  (List.eraseIdx_sublist ts i).subset h

theorem popOne_pops (tag : Tag) (upTo kcv : Int) (sid : Nat) (st : PopState) (k : Nat × Tag) :
    (popOne tag upTo kcv st sid).pops k =
      if k = (sid, tag) then
        (if ((st.pops (sid, tag)).getD (0, 0)).1 < upTo then some (upTo, kcv)
         else some ((st.pops (sid, tag)).getD (0, 0)))
      else st.pops k := rfl

theorem popOne_tasks (tag : Tag) (upTo kcv : Int) (sid : Nat) (st : PopState) :
    (popOne tag upTo kcv st sid).tasks =
      if ((st.pops (sid, tag)).getD (0, 0)).1 = 0 then
        st.tasks ++ [⟨sid, tag, 0, none, []⟩]
      else st.tasks := rfl

theorem popOne_sentLog (tag : Tag) (upTo kcv : Int) (sid : Nat) (st : PopState) :
    (popOne tag upTo kcv st sid).sentLog = st.sentLog := rfl

theorem popOne_inv (tag : Tag) (upTo kcv : Int) (sid : Nat) (st : PopState)
    (hUp : 0 < upTo) (hInv : PopInv st) : PopInv (popOne tag upTo kcv st sid) := by
  obtain ⟨h1, h2, h3, h4⟩ := hInv
  refine ⟨?_, ?_, ?_, ?_⟩
  · intro k v hkv
    rw [popOne_pops] at hkv
    by_cases hk : k = (sid, tag)
    · rw [if_pos hk] at hkv
      by_cases hlt : ((st.pops (sid, tag)).getD (0, 0)).1 < upTo
      · rw [if_pos hlt] at hkv
        injection hkv with hkv
        subst hkv
        exact hUp
      · rw [if_neg hlt] at hkv
        injection hkv with hkv
        subst hkv
        omega
    · rw [if_neg hk] at hkv
      exact h1 k v hkv
  · intro t ht
    rw [popOne_tasks] at ht
    by_cases hz : ((st.pops (sid, tag)).getD (0, 0)).1 = 0
    · rw [if_pos hz] at ht
      rcases List.mem_append.mp ht with ht | ht
      · exact h2 t ht
      · rw [List.mem_singleton] at ht
        subst ht
        exact ⟨le_refl _, List.chain'_nil, by simp, by simp⟩
    · rw [if_neg hz] at ht
      exact h2 t ht
  · intro t ht
    rw [popOne_tasks] at ht
    rw [popOne_pops]
    by_cases hk : taskKey t = (sid, tag)
    · rw [if_pos hk]
      by_cases hlt : ((st.pops (sid, tag)).getD (0, 0)).1 < upTo
      · rw [if_pos hlt]
        exact Option.some_ne_none _
      · rw [if_neg hlt]
        exact Option.some_ne_none _
    · rw [if_neg hk]
      by_cases hz : ((st.pops (sid, tag)).getD (0, 0)).1 = 0
      · rw [if_pos hz] at ht
        rcases List.mem_append.mp ht with ht | ht
        · exact h3 t ht
        · rw [List.mem_singleton] at ht
          subst ht
          exact absurd rfl hk
      · rw [if_neg hz] at ht
        exact h3 t ht
  · intro k
    rw [popOne_tasks]
    by_cases hz : ((st.pops (sid, tag)).getD (0, 0)).1 = 0
    · rw [if_pos hz, keyCount_append]
      have hnone : st.pops (sid, tag) = none := by
        rcases hp : st.pops (sid, tag) with _ | v
        · rfl
        · exfalso
          have := h1 (sid, tag) v hp
          rw [hp] at hz
          simp at hz
          omega
      by_cases hk : k = (sid, tag)
      · have hzero : keyCount st.tasks k = 0 := by
          apply keyCount_eq_zero
          intro t ht hkt
          refine (h3 t ht) ?_
          rw [hkt, hk]
          exact hnone
        rw [hzero, keyCount_cons]
        rw [if_pos (by rw [hk]; rfl), keyCount_nil]
      · rw [keyCount_cons,
          if_neg (show ¬ taskKey ⟨sid, tag, 0, none, []⟩ = k from fun h => hk (by rw [← h]; rfl)),
          keyCount_nil]
        have := h4 k
        omega
    · rw [if_neg hz]
      exact h4 k

theorem popFold_inv (tag : Tag) (upTo kcv : Int) (hUp : 0 < upTo) :
    ∀ (sids : List Nat) (st : PopState), PopInv st →
      PopInv (sids.foldl (popOne tag upTo kcv) st) := by
  intro sids
  induction sids with
  | nil => intro st h; exact h
  | cons s rest ih =>
    intro st h
    exact ih _ (popOne_inv tag upTo kcv s st hUp h)

theorem popFromLogWake_inv (st : PopState) (i : Nat) (present : Bool) (st' : PopState)
    (h : popFromLogWake st i present = some st') (hInv : PopInv st) : PopInv st' := by
  obtain ⟨h1, h2, h3, h4⟩ := hInv
  rcases hget : st.tasks.get? i with _ | t
  · simp only [popFromLogWake, hget] at h
    exact Option.noConfusion h
  · have htmem : t ∈ st.tasks := List.get?_mem hget
    rcases hsend : t.sending with _ | toV0
    case some =>
      simp only [popFromLogWake, hget, hsend] at h
      exact Option.noConfusion h
    case none =>
      simp only [popFromLogWake, hget, hsend] at h
      obtain ⟨hlast0, hchain, hbound, hsinv⟩ := h2 t htmem
      have hbt : taskBound t = t.last := by simp only [taskBound, hsend]
      split_ifs at h with hle hpres
      · injection h with h
        subst h
        refine ⟨?_, ?_, ?_, ?_⟩
        · intro k v hkv
          dsimp only at hkv
          by_cases hk : k = taskKey t
          · rw [if_pos hk] at hkv
            exact Option.noConfusion hkv
          · rw [if_neg hk] at hkv
            exact h1 k v hkv
        · intro t' ht'
          exact h2 t' (mem_of_mem_eraseIdx ht')
        · intro t' ht'
          dsimp only at ht' ⊢
          by_cases hk : taskKey t' = taskKey t
          · exfalso
            have e1 := keyCount_eraseIdx_get st.tasks i t hget
            have e2 := keyCount_pos _ _ t' ht' hk
            have e3 := h4 (taskKey t)
            omega
          · rw [if_neg hk]
            exact h3 t' (mem_of_mem_eraseIdx ht')
        · intro k
          dsimp only
          have e1 := keyCount_eraseIdx_le st.tasks i k
          have e2 := h4 k
          omega
      · injection h with h
        subst h
        have hlt : t.last < ((st.pops (taskKey t)).getD (0, 0)).1 := by omega
        refine ⟨?_, ?_, ?_, ?_⟩
        · intro k v hkv
          dsimp only at hkv
          by_cases hk : k = taskKey t
          · rw [if_pos hk] at hkv
            injection hkv with hkv
            subst hkv
            omega
          · rw [if_neg hk] at hkv
            exact h1 k v hkv
        · intro t' ht'
          dsimp only at ht'
          rcases List.mem_or_eq_of_mem_set ht' with hm | he
          · exact h2 t' hm
          · subst he
            refine ⟨hlast0, ?_, ?_, ?_⟩
            · rw [List.chain'_append]
              refine ⟨hchain, List.chain'_singleton _, ?_⟩
              intro x hx y hy
              rw [List.head?_cons, Option.mem_def] at hy
              injection hy with hy
              subst hy
              have hxm := List.mem_of_getLast?_eq_some (Option.mem_def.mp hx)
              have := hbound x hxm
              rw [hbt] at this
              omega
            · intro x hx
              simp only [taskBound]
              rcases List.mem_append.mp hx with hx | hx
              · have := hbound x hx
                rw [hbt] at this
                omega
              · rw [List.mem_singleton] at hx
                subst hx
                exact le_refl _
            · intro toV' h'
              dsimp only at h'
              injection h' with h'
              subst h'
              exact hlt
        · intro t' ht'
          dsimp only at ht' ⊢
          by_cases hk : taskKey t' = taskKey t
          · rw [if_pos hk]
            exact Option.some_ne_none _
          · rw [if_neg hk]
            rcases List.mem_or_eq_of_mem_set ht' with hm | he
            · exact h3 t' hm
            · exfalso
              apply hk
              rw [he]
              rfl
        · intro k
          dsimp only
          rw [keyCount_set_same st.tasks i t
            ⟨t.server, t.tag, t.last, some ((st.pops (taskKey t)).getD (0, 0)),
              t.sentHist ++ [((st.pops (taskKey t)).getD (0, 0)).1]⟩ hget rfl k]
          exact h4 k
      · injection h with h
        subst h
        have hlt : t.last < ((st.pops (taskKey t)).getD (0, 0)).1 := by omega
        refine ⟨?_, ?_, ?_, ?_⟩
        · intro k v hkv
          dsimp only at hkv
          by_cases hk : k = taskKey t
          · rw [if_pos hk] at hkv
            injection hkv with hkv
            subst hkv
            omega
          · rw [if_neg hk] at hkv
            exact h1 k v hkv
        · intro t' ht'
          exact h2 t' (mem_of_mem_eraseIdx ht')
        · intro t' ht'
          dsimp only at ht' ⊢
          by_cases hk : taskKey t' = taskKey t
          · rw [if_pos hk]
            exact Option.some_ne_none _
          · rw [if_neg hk]
            exact h3 t' (mem_of_mem_eraseIdx ht')
        · intro k
          dsimp only
          have e1 := keyCount_eraseIdx_le st.tasks i k
          have e2 := h4 k
          omega

theorem popFromLogReplyOk_inv (st : PopState) (i : Nat) (st' : PopState)
    (h : popFromLogReplyOk st i = some st') (hInv : PopInv st) : PopInv st' := by
  obtain ⟨h1, h2, h3, h4⟩ := hInv
  rcases hget : st.tasks.get? i with _ | t
  · simp only [popFromLogReplyOk, hget] at h
    exact Option.noConfusion h
  · have htmem : t ∈ st.tasks := List.get?_mem hget
    rcases hsend : t.sending with _ | toV
    case none =>
      simp only [popFromLogReplyOk, hget, hsend] at h
      exact Option.noConfusion h
    case some =>
      simp only [popFromLogReplyOk, hget, hsend] at h
      injection h with h
      subst h
      obtain ⟨hlast0, hchain, hbound, hsinv⟩ := h2 t htmem
      have hlt := hsinv toV hsend
      have hbt : taskBound t = toV.1 := by simp only [taskBound, hsend]
      refine ⟨h1, ?_, ?_, ?_⟩
      · intro t' ht'
        dsimp only at ht'
        rcases List.mem_or_eq_of_mem_set ht' with hm | he
        · exact h2 t' hm
        · subst he
          refine ⟨by dsimp only; omega, hchain, ?_, ?_⟩
          · intro x hx
            have := hbound x hx
            rw [hbt] at this
            simpa [taskBound] using this
          · intro toV' h'
            exact Option.noConfusion h'
      · intro t' ht'
        dsimp only at ht' ⊢
        rcases List.mem_or_eq_of_mem_set ht' with hm | he
        · exact h3 t' hm
        · subst he
          exact h3 t htmem
      · intro k
        dsimp only
        rw [keyCount_set_same st.tasks i t
          ⟨t.server, t.tag, toV.1, none, t.sentHist⟩ hget rfl k]
        exact h4 k

theorem popFromLogReplyErr_inv (st : PopState) (i : Nat) (st' : PopState)
    (h : popFromLogReplyErr st i = some st') (hInv : PopInv st) : PopInv st' := by
  obtain ⟨h1, h2, h3, h4⟩ := hInv
  rcases hget : st.tasks.get? i with _ | t
  · simp only [popFromLogReplyErr, hget] at h
    exact Option.noConfusion h
  · rcases hsend : t.sending with _ | toV
    case none =>
      simp only [popFromLogReplyErr, hget, hsend] at h
      exact Option.noConfusion h
    case some =>
      simp only [popFromLogReplyErr, hget, hsend] at h
      injection h with h
      subst h
      refine ⟨h1, ?_, ?_, ?_⟩
      · intro t' ht'
        exact h2 t' (mem_of_mem_eraseIdx ht')
      · intro t' ht'
        dsimp only at ht' ⊢
        exact h3 t' (mem_of_mem_eraseIdx ht')
      · intro k
        dsimp only
        have e1 := keyCount_eraseIdx_le st.tasks i k
        have e2 := h4 k
        omega

theorem applyPopEvent_inv (sys : TagPartitionedLogSystem) (e : PopEvent) (st st' : PopState)
    (h : applyPopEvent sys e st = some st') (hInv : PopInv st) : PopInv st' := by
  cases e with
  | callPop upTo tag kcv popLocality =>
    simp only [applyPopEvent] at h
    injection h with h
    subst h
    rw [pop]
    by_cases hle : upTo ≤ 0
    · rw [if_pos hle]
      exact hInv
    · rw [if_neg hle]
      have hUp : 0 < upTo := by omega
      by_cases hrl : tag.locality = tagLocalityRemoteLog
      · rw [if_pos hrl, popLogRouter]
        by_cases h0 : upTo = 0
        · rw [if_pos h0]
          exact hInv
        · rw [if_neg h0]
          exact popFold_inv tag upTo kcv hUp _ st hInv
      · rw [if_neg hrl]
        exact popFold_inv tag upTo kcv hUp _ st hInv
  | callPopLogRouter upTo tag kcv popLocality =>
    simp only [applyPopEvent] at h
    by_cases hge : 0 ≤ upTo
    · rw [if_pos hge] at h
      injection h with h
      subst h
      rw [popLogRouter]
      by_cases h0 : upTo = 0
      · rw [if_pos h0]
        exact hInv
      · rw [if_neg h0]
        exact popFold_inv tag upTo kcv (by omega) _ st hInv
    · rw [if_neg hge] at h
      exact Option.noConfusion h
  | wake i present => exact popFromLogWake_inv st i present st' h hInv
  | replyOk i => exact popFromLogReplyOk_inv st i st' h hInv
  | replyErr i => exact popFromLogReplyErr_inv st i st' h hInv

theorem popReachable_inv (sys : TagPartitionedLogSystem) (s : PopState)
    (h : PopReachable sys s) : PopInv s := by
  induction h with
  | initR =>
    refine ⟨?_, ?_, ?_, ?_⟩
    · intro k v hv
      exact Option.noConfusion hv
    · intro t ht
      exact absurd ht (List.not_mem_nil t)
    · intro t ht
      exact absurd ht (List.not_mem_nil t)
    · intro k
      rw [show keyCount initPop.tasks k = 0 from rfl]
      omega
  | stepR _hr hstep ih => exact applyPopEvent_inv _ _ _ _ hstep ih

theorem popOne_mono (tag : Tag) (upTo kcv : Int) (sid : Nat) (st : PopState)
    (k : Nat × Tag) (p : Int × Int) (hp : st.pops k = some p) :
    ∃ q, (popOne tag upTo kcv st sid).pops k = some q ∧ p.1 ≤ q.1 := by
  rw [popOne_pops]
  by_cases hk : k = (sid, tag)
  · subst hk
    rw [if_pos rfl, hp, Option.getD_some]
    by_cases hlt : p.1 < upTo
    · rw [if_pos hlt]
      exact ⟨(upTo, kcv), rfl, by omega⟩
    · rw [if_neg hlt]
      exact ⟨p, rfl, le_refl _⟩
  · rw [if_neg hk]
    exact ⟨p, hp, le_refl _⟩

theorem popFold_mono (tag : Tag) (upTo kcv : Int) :
    ∀ (sids : List Nat) (st : PopState) (k : Nat × Tag) (p : Int × Int),
      st.pops k = some p →
      ∃ q, (sids.foldl (popOne tag upTo kcv) st).pops k = some q ∧ p.1 ≤ q.1 := by
  intro sids
  induction sids with
  | nil =>
    intro st k p hp
    exact ⟨p, hp, le_refl _⟩
  | cons s rest ih =>
    intro st k p hp
    obtain ⟨q, hq, hpq⟩ := popOne_mono tag upTo kcv s st k p hp
    obtain ⟨r, hr, hqr⟩ := ih (popOne tag upTo kcv st s) k q hq
    exact ⟨r, hr, le_trans hpq hqr⟩

theorem applyPopEvent_mono (sys : TagPartitionedLogSystem) (e : PopEvent) (st st' : PopState)
    (k : Nat × Tag) (p q : Int × Int)
    (h : applyPopEvent sys e st = some st') (hp : st.pops k = some p)
    (hq : st'.pops k = some q) : p.1 ≤ q.1 := by
  cases e with
  | callPop upTo tag kcv popLocality =>
    simp only [applyPopEvent] at h
    injection h with h
    subst h
    rw [pop] at hq
    by_cases hle : upTo ≤ 0
    · rw [if_pos hle, hp] at hq
      injection hq with hq
      subst hq
      exact le_refl _
    · rw [if_neg hle] at hq
      by_cases hrl : tag.locality = tagLocalityRemoteLog
      · rw [if_pos hrl, popLogRouter] at hq
        by_cases h0 : upTo = 0
        · rw [if_pos h0, hp] at hq
          injection hq with hq
          subst hq
          exact le_refl _
        · rw [if_neg h0] at hq
          obtain ⟨r, hr, hpr⟩ := popFold_mono tag upTo kcv _ st k p hp
          rw [hr] at hq
          injection hq with hq
          subst hq
          exact hpr
      · rw [if_neg hrl] at hq
        obtain ⟨r, hr, hpr⟩ := popFold_mono tag upTo kcv _ st k p hp
        rw [hr] at hq
        injection hq with hq
        subst hq
        exact hpr
  | callPopLogRouter upTo tag kcv popLocality =>
    simp only [applyPopEvent] at h
    by_cases hge : 0 ≤ upTo
    · rw [if_pos hge] at h
      injection h with h
      subst h
      rw [popLogRouter] at hq
      by_cases h0 : upTo = 0
      · rw [if_pos h0, hp] at hq
        injection hq with hq
        subst hq
        exact le_refl _
      · rw [if_neg h0] at hq
        obtain ⟨r, hr, hpr⟩ := popFold_mono tag upTo kcv _ st k p hp
        rw [hr] at hq
        injection hq with hq
        subst hq
        exact hpr
    · rw [if_neg hge] at h
      exact Option.noConfusion h
  | wake i present =>
    simp only [applyPopEvent] at h
    rcases hget : st.tasks.get? i with _ | t
    · simp only [popFromLogWake, hget] at h
      exact Option.noConfusion h
    · rcases hsend : t.sending with _ | toV0
      case some =>
        simp only [popFromLogWake, hget, hsend] at h
        exact Option.noConfusion h
      case none =>
        simp only [popFromLogWake, hget, hsend] at h
        split_ifs at h with hle hpres
        · injection h with h
          subst h
          dsimp only at hq
          by_cases hk : k = taskKey t
          · rw [if_pos hk] at hq
            exact Option.noConfusion hq
          · rw [if_neg hk, hp] at hq
            injection hq with hq
            subst hq
            exact le_refl _
        · injection h with h
          subst h
          dsimp only at hq
          by_cases hk : k = taskKey t
          · rw [if_pos hk] at hq
            rw [hk] at hp
            rw [hp, Option.getD_some] at hq
            injection hq with hq
            subst hq
            exact le_refl _
          · rw [if_neg hk, hp] at hq
            injection hq with hq
            subst hq
            exact le_refl _
        · injection h with h
          subst h
          dsimp only at hq
          by_cases hk : k = taskKey t
          · rw [if_pos hk] at hq
            rw [hk] at hp
            rw [hp, Option.getD_some] at hq
            injection hq with hq
            subst hq
            exact le_refl _
          · rw [if_neg hk, hp] at hq
            injection hq with hq
            subst hq
            exact le_refl _
  | replyOk i =>
    simp only [applyPopEvent] at h
    rcases hget : st.tasks.get? i with _ | t
    · simp only [popFromLogReplyOk, hget] at h
      exact Option.noConfusion h
    · rcases hsend : t.sending with _ | toV
      case none =>
        simp only [popFromLogReplyOk, hget, hsend] at h
        exact Option.noConfusion h
      case some =>
        simp only [popFromLogReplyOk, hget, hsend] at h
        injection h with h
        subst h
        dsimp only at hq
        rw [hp] at hq
        injection hq with hq
        subst hq
        exact le_refl _
  | replyErr i =>
    simp only [applyPopEvent] at h
    rcases hget : st.tasks.get? i with _ | t
    · simp only [popFromLogReplyErr, hget] at h
      exact Option.noConfusion h
    · rcases hsend : t.sending with _ | toV
      case none =>
        simp only [popFromLogReplyErr, hget, hsend] at h
        exact Option.noConfusion h
      case some =>
        simp only [popFromLogReplyErr, hget, hsend] at h
        injection h with h
        subst h
        dsimp only at hq
        rw [hp] at hq
        injection hq with hq
        subst hq
        exact le_refl _

/-- C4 (amended): in every reachable state of the pop transition system, for
every (server id, tag) pair at most one popFromLog task exists; the upTo values
sent by any single popFromLog task are strictly increasing; and across any
single step the upTo stored in outstandingPops for a pair never decreases while
the entry is present.  (The original claim's globally strictly increasing sent
sequence per pair fails across task lifetimes; see the counterexample.) -/
theorem c4_pop_invariants (sys : TagPartitionedLogSystem) (s : PopState)
    (h : PopReachable sys s) :
    (∀ k, keyCount s.tasks k ≤ 1)
    ∧ (∀ t ∈ s.tasks, List.Chain' (· < ·) t.sentHist)
    ∧ (∀ (e : PopEvent) (s' : PopState) (k : Nat × Tag) (p q : Int × Int),
        applyPopEvent sys e s = some s' → s.pops k = some p → s'.pops k = some q →
        p.1 ≤ q.1) := by
  have hInv := popReachable_inv sys s h
  refine ⟨hInv.2.2.2, ?_, ?_⟩
  · intro t ht
    exact (hInv.2.1 t ht).2.1
  · intro e s' k p q hstep hp hq
    exact applyPopEvent_mono sys e s s' k p q hstep hp hq

/-- C4 witness: the invariants instantiated in the initial state of a one-server
system, reached by the empty event sequence. -/
theorem c4_witness :
    (∀ k, keyCount initPop.tasks k ≤ 1)
    ∧ (∀ t ∈ initPop.tasks, List.Chain' (· < ·) t.sentHist)
    ∧ (∀ (e : PopEvent) (s' : PopState) (k : Nat × Tag) (p q : Int × Int),
        applyPopEvent freshLogSystem e initPop = some s' → initPop.pops k = some p →
        s'.pops k = some q → p.1 ≤ q.1) :=
  c4_pop_invariants freshLogSystem initPop PopReachable.initR

/-- C4 counterexample: on a system with one server (id 1), the call sequence
pop(10, T), task wakes and sends 10, reply arrives, task wakes again (10 ≤ 10:
erases the entry and exits), pop(5, T), new task wakes and sends 5, is a run of
pop and popFromLog steps after which the upTo values actually sent to server 1
for tag T are [10, 5] - not strictly increasing, refuting the claim's
monotone-sent-sequence part. -/
theorem c4_sent_decreasing_counterexample :
    (runPopEvents
        ⟨2, [⟨[⟨1, true⟩], [], 0, 1, 0, [10], true, 1, 0, 0⟩],
          1, 0, 0, false, false, false, none, 0, []⟩
        [.callPop 10 ⟨0, 3⟩ 5 tagLocalityInvalid, .wake 0 true, .replyOk 0, .wake 0 true,
          .callPop 5 ⟨0, 3⟩ 4 tagLocalityInvalid, .wake 0 true]
        initPop).map (fun s => sentFor s (1, ⟨0, 3⟩)) = some [10, 5]
    ∧ ¬ List.Chain' (· < ·) [(10 : Int), 5] := by
  refine ⟨by decide, ?_⟩
  intro hc
  have h10 := (List.chain'_cons.mp hc).1
  omega

end FDBLog
